import Mathlib

/-!
Verification development for the sanechek-bot repository.

This file gives a shallow embedding, in Lean 4, of the parts of the bot's
Python source that the checked claims are about:

* `src/utils/date_parser.py` — the Russian natural-language date/time parser
  (`_extract_time`, `_parse_relative_time`, `_parse_weekday`,
  `_parse_date_expression`, `parse_deadline`, `parse_reminder_time`);
* `src/utils/categories.py` — expense categorization;
* `src/utils/permissions.py` — `is_admin`, `can_close_task`, `can_edit_task`;
* `src/handlers/ask.py` — the `/ask` daily-quota bookkeeping;
* `src/handlers/tasks.py` — `_create_next_recurring_task`;
* `src/llm/summarizer.py` — the input-truncation step of `summarize_messages`.

Python strings are modelled as `List Char` (a Python `str` is a sequence of
Unicode code points, exactly as `String.data`); Python `datetime` values in the
configured time zone are modelled by `PyDateTime` at second granularity
(microseconds are not modelled; no claim depends on sub-second behaviour, and
all datetimes compared here live in the single configured zone, so comparison
is plain wall-clock comparison).  Database interaction is modelled by explicit
association lists and returned values: a function that would `session.add` a
row instead returns the row.
-/

namespace Sanechek

/-! ## Python string primitives over `List Char` -/

/-- Python `\s` for the whitespace characters that actually occur in
the inputs handled by the parser (space, tab, newline, carriage return,
vertical tab, form feed). -/
def pyIsSpace (c : Char) : Bool :=
  c == ' ' || c == '\t' || c == '\n' || c == '\r' || c == '\x0b' || c == '\x0c'

/-- Python `str.lower` restricted to the alphabets used by the source: ASCII
letters and the Cyrillic range А..Я (U+0410..U+042F) plus Ё (U+0401). -/
def pyLower (c : Char) : Char :=
  if 'A' ≤ c && c ≤ 'Z' then Char.ofNat (c.toNat + 32)
  else if 0x410 ≤ c.toNat && c.toNat ≤ 0x42F then Char.ofNat (c.toNat + 0x20)
  else if c.toNat = 0x401 then Char.ofNat 0x451
  else c

def pyLowerStr (l : List Char) : List Char := l.map pyLower

/-- Python `str.strip()`. -/
def pyStrip (l : List Char) : List Char :=
  ((l.dropWhile pyIsSpace).reverse.dropWhile pyIsSpace).reverse

/-- Does `l` start with `needle`?  (Prefix test used by the substring scan.) -/
def startsWithL : List Char → List Char → Bool
  | _, [] => true
  | [], _ :: _ => false
  | c :: cs, n :: ns => c == n && startsWithL cs ns

/-- Python `needle in hay` for strings: substring containment. -/
def hasSub (needle : List Char) : List Char → Bool
  | [] => needle.isEmpty
  | c :: rest => startsWithL (c :: rest) needle || hasSub needle rest

/-- Python `hay.replace(needle, "")`: remove all (non-overlapping,
left-to-right) occurrences of a non-empty `needle`. -/
def removeAll (needle : List Char) : List Char → List Char
  | [] => []
  | c :: rest =>
    if needle.isEmpty = false && startsWithL (c :: rest) needle then
      removeAll needle (rest.drop (needle.length - 1))
    else
      c :: removeAll needle rest
termination_by l => l.length
decreasing_by
  · simp only [List.length_drop, List.length_cons]; omega
  · simp only [List.length_cons]; omega

/-- Python `int` on a non-empty string of ASCII digits. -/
def natOfDigits (l : List Char) : Nat :=
  l.foldl (fun a c => a * 10 + (c.toNat - 48)) 0

/-- Python `\w` (word character) for the alphabets in play: ASCII
alphanumerics, underscore, and Cyrillic U+0400..U+04FF. -/
def pyIsWord (c : Char) : Bool :=
  c.isAlphanum || c == '_' || (0x400 ≤ c.toNat && c.toNat ≤ 0x4FF)

/-! ## A model of `datetime` in the configured time zone

All datetimes the parser manipulates carry the same `tzinfo`
(`settings.timezone`), so Python's comparison operators compare plain
wall-clock fields; we model a wall-clock datetime at second granularity. -/

structure PyDateTime where
  year : Nat
  month : Nat
  day : Nat
  hour : Nat
  minute : Nat
  second : Nat
deriving DecidableEq

/-- Gregorian leap year, as implemented by Python's `calendar`/`datetime`. -/
def isLeap (y : Nat) : Bool :=
  (y % 4 == 0 && y % 100 != 0) || y % 400 == 0

def daysInMonth (y m : Nat) : Nat :=
  if m = 2 then (if isLeap y then 29 else 28)
  else if m = 4 ∨ m = 6 ∨ m = 9 ∨ m = 11 then 30
  else 31

/-- A well-formed wall-clock datetime (what Python's `datetime` invariants
guarantee). -/
def ValidDT (d : PyDateTime) : Prop :=
  1 ≤ d.year ∧ 1 ≤ d.month ∧ d.month ≤ 12 ∧ 1 ≤ d.day ∧
  d.day ≤ daysInMonth d.year d.month ∧ d.hour ≤ 23 ∧ d.minute ≤ 59 ∧
  d.second ≤ 59

instance (d : PyDateTime) : Decidable (ValidDT d) := by
  unfold ValidDT; infer_instance

/-- `d + timedelta(days=1)` (time of day unchanged). -/
def nextDate (d : PyDateTime) : PyDateTime :=
  if d.day < daysInMonth d.year d.month then { d with day := d.day + 1 }
  else if d.month < 12 then { d with month := d.month + 1, day := 1 }
  else { d with year := d.year + 1, month := 1, day := 1 }

/-- `d + timedelta(days=n)`. -/
def addDays : Nat → PyDateTime → PyDateTime
  | 0, d => d
  | n + 1, d => addDays n (nextDate d)

/-- `d + timedelta(minutes=v)` (seconds unchanged, days carried). -/
def addMinutes (v : Nat) (d : PyDateTime) : PyDateTime :=
  let total := d.hour * 60 + d.minute + v
  { addDays (total / 1440) d with hour := total % 1440 / 60, minute := total % 60 }

/-- `d.replace(hour=h, minute=m, second=0, microsecond=0)`. -/
def setHMS (d : PyDateTime) (h m : Nat) : PyDateTime :=
  { d with hour := h, minute := m, second := 0 }

/-- `d.replace(hour=h, minute=m)` — seconds kept (used by the
`timedelta(days=…)` branches of `_parse_relative_time`, which call
`.replace(hour=0, minute=1)` without touching seconds). -/
def setHM (d : PyDateTime) (h m : Nat) : PyDateTime :=
  { d with hour := h, minute := m }

/-- Number of leap years in `[1, y]`. -/
def leapCount (y : Nat) : Nat := y / 4 + y / 400 - y / 100

/-- Days contributed by all whole years before year `y`. -/
def daysBeforeYear (y : Nat) : Nat := 365 * (y - 1) + leapCount (y - 1)

/-- Days contributed by the whole months of year `y` before month `m`. -/
def daysBeforeMonth (y : Nat) : Nat → Nat
  | 0 => 0
  | 1 => 0
  | m + 1 => daysBeforeMonth y m + daysInMonth y m

/-- Absolute day index of a date (day 0 = 0001-01-01). -/
def toDayNumber (d : PyDateTime) : Nat :=
  daysBeforeYear d.year + daysBeforeMonth d.year d.month + (d.day - 1)

/-- Python `datetime.weekday()`: Monday = 0 … Sunday = 6.
(Day number 738885 = 2024-01-01 is a Monday and `738885 % 7 = 0`.) -/
def weekday (d : PyDateTime) : Nat := toDayNumber d % 7

/-- Wall-clock datetime as absolute seconds; Python datetime comparison
(in a single zone) is comparison of this value. -/
def toSec (d : PyDateTime) : Nat :=
  (toDayNumber d * 24 + d.hour) * 3600 + d.minute * 60 + d.second

/-! ## `src/utils/date_parser.py`: tables -/

/-- `WEEKDAYS_RU` (dict insertion order matters: the scan takes the first
entry whose key occurs as a substring). -/
def WEEKDAYS_RU : List (List Char × Nat) := [
  ("понедельник".data, 0), ("пн".data, 0),
  ("вторник".data, 1), ("вт".data, 1),
  ("среда".data, 2), ("среду".data, 2), ("ср".data, 2),
  ("четверг".data, 3), ("чт".data, 3),
  ("пятница".data, 4), ("пятницу".data, 4), ("пт".data, 4),
  ("суббота".data, 5), ("субботу".data, 5), ("сб".data, 5),
  ("воскресенье".data, 6), ("воскр".data, 6), ("вс".data, 6)]

/-- `MONTHS_RU`. -/
def MONTHS_RU : List (List Char × Nat) := [
  ("января".data, 1), ("январь".data, 1), ("янв".data, 1),
  ("февраля".data, 2), ("февраль".data, 2), ("фев".data, 2),
  ("марта".data, 3), ("март".data, 3), ("мар".data, 3),
  ("апреля".data, 4), ("апрель".data, 4), ("апр".data, 4),
  ("мая".data, 5), ("май".data, 5),
  ("июня".data, 6), ("июнь".data, 6), ("июн".data, 6),
  ("июля".data, 7), ("июль".data, 7), ("июл".data, 7),
  ("августа".data, 8), ("август".data, 8), ("авг".data, 8),
  ("сентября".data, 9), ("сентябрь".data, 9), ("сен".data, 9), ("сент".data, 9),
  ("октября".data, 10), ("октябрь".data, 10), ("окт".data, 10),
  ("ноября".data, 11), ("ноябрь".data, 11), ("ноя".data, 11),
  ("декабря".data, 12), ("декабрь".data, 12), ("дек".data, 12)]

/-- `TIME_OF_DAY`: word, hour, minute. -/
def TIME_OF_DAY : List (List Char × Nat × Nat) := [
  ("утром".data, 9, 0), ("утро".data, 9, 0),
  ("днём".data, 12, 0), ("днем".data, 12, 0), ("день".data, 12, 0),
  ("вечером".data, 18, 0), ("вечер".data, 18, 0),
  ("ночью".data, 23, 0), ("ночь".data, 23, 0)]

/-- `NUMBER_WORDS`. -/
def NUMBER_WORDS : List (List Char × Nat) := [
  ("один".data, 1), ("одну".data, 1), ("одного".data, 1),
  ("два".data, 2), ("две".data, 2), ("двух".data, 2),
  ("три".data, 3), ("трёх".data, 3), ("трех".data, 3),
  ("четыре".data, 4), ("четырёх".data, 4), ("четырех".data, 4),
  ("пять".data, 5), ("пяти".data, 5),
  ("шесть".data, 6), ("шести".data, 6),
  ("семь".data, 7), ("семи".data, 7),
  ("восемь".data, 8), ("восьми".data, 8),
  ("девять".data, 9), ("девяти".data, 9),
  ("десять".data, 10), ("десяти".data, 10),
  ("полчаса".data, 30)]

/-! ## Hand-compiled matchers for the specific regular expressions used

Each Python `re.search` is compiled by hand into a scan over start positions
(leftmost match wins, as in `re`), with the pattern's greedy/optional
behaviour made explicit. -/

/-- Attempt `в\s+(\d{1,2})(?:[:.](\d{2}))?` anchored at the head of `l`;
returns hour, optional minute, and the text after the match. -/
def matchTimeVAt (l : List Char) : Option (Nat × Option Nat × List Char) :=
  match l with
  | 'в' :: l1 =>
    let sp := l1.takeWhile pyIsSpace
    if sp.isEmpty then none else
    let l2 := l1.drop sp.length
    let ds := (l2.takeWhile Char.isDigit).take 2
    if ds.isEmpty then none else
    let l3 := l2.drop ds.length
    match l3 with
    | s :: a :: b :: rest =>
      if (s == ':' || s == '.') && a.isDigit && b.isDigit then
        some (natOfDigits ds, some (natOfDigits [a, b]), rest)
      else some (natOfDigits ds, none, l3)
    | _ => some (natOfDigits ds, none, l3)
  | _ => none

/-- `re.search` for the pattern above: first matching start position;
returns hour, optional minute, the text before the match and after it. -/
def searchTimeV (acc : List Char) : List Char → Option (Nat × Option Nat × List Char × List Char)
  | [] => none
  | c :: rest =>
    match matchTimeVAt (c :: rest) with
    | some (h, mo, post) => some (h, mo, acc.reverse, post)
    | none => searchTimeV (c :: acc) rest

/-- `re.match(r"^(\d{1,2})[:.](\d{2})$", l)`. -/
def matchTimeBare (l : List Char) : Option (Nat × Nat) :=
  let ds := (l.takeWhile Char.isDigit).take 2
  if ds.isEmpty then none else
  match l.drop ds.length with
  | s :: a :: b :: [] =>
    if (s == ':' || s == '.') && a.isDigit && b.isDigit then
      some (natOfDigits ds, natOfDigits [a, b])
    else none
  | _ => none

def cherez : List Char := "через".data

/-- Attempt `через\s+(\d+)\s+<suffix>` at the head of `l`. -/
def matchNumSuffixAt (suffix l : List Char) : Option Nat :=
  if startsWithL l cherez then
    let l1 := l.drop 5
    let sp := l1.takeWhile pyIsSpace
    if sp.isEmpty then none else
    let l2 := l1.drop sp.length
    let ds := l2.takeWhile Char.isDigit
    if ds.isEmpty then none else
    let l3 := l2.drop ds.length
    let sp2 := l3.takeWhile pyIsSpace
    if sp2.isEmpty then none else
    if startsWithL (l3.drop sp2.length) suffix then some (natOfDigits ds) else none
  else none

def searchNumSuffix (suffix : List Char) : List Char → Option Nat
  | [] => none
  | c :: rest =>
    match matchNumSuffixAt suffix (c :: rest) with
    | some v => some v
    | none => searchNumSuffix suffix rest

/-- Attempt `через\s+<word>` at the head of `l`; `bdry` adds a trailing
`\b` (used only by `через\s+час\b`). -/
def matchLitAt (word : List Char) (bdry : Bool) (l : List Char) : Bool :=
  if startsWithL l cherez then
    let l1 := l.drop 5
    let sp := l1.takeWhile pyIsSpace
    if sp.isEmpty then false else
    let l2 := l1.drop sp.length
    if startsWithL l2 word then
      if bdry then
        match l2.drop word.length with
        | [] => true
        | c :: _ => !pyIsWord c
      else true
    else false
  else false

def searchLit (word : List Char) (bdry : Bool) : List Char → Bool
  | [] => false
  | c :: rest => matchLitAt word bdry (c :: rest) || searchLit word bdry rest

/-- Attempt `через\s+<word>\s+<suffix>` at the head of `l`. -/
def matchWordSuffixAt (word suffix l : List Char) : Bool :=
  if startsWithL l cherez then
    let l1 := l.drop 5
    let sp := l1.takeWhile pyIsSpace
    if sp.isEmpty then false else
    let l2 := l1.drop sp.length
    if startsWithL l2 word then
      let l3 := l2.drop word.length
      let sp2 := l3.takeWhile pyIsSpace
      if sp2.isEmpty then false else
      startsWithL (l3.drop sp2.length) suffix
    else false
  else false

def searchWordSuffix (word suffix : List Char) : List Char → Bool
  | [] => false
  | c :: rest => matchWordSuffixAt word suffix (c :: rest) || searchWordSuffix word suffix rest

/-- The month pattern the source actually builds.  The source writes
`rf"(\d{1,2})\s+{month_name}"`: inside an f-string `{1,2}` is a replacement
field evaluating the tuple `(1, 2)`, so the compiled pattern is
`(\d(1, 2))\s+<month>` — a digit, the literal text `1, 2`, whitespace,
then the month name. -/
def matchBrokenMonthAt (mname l : List Char) : Bool :=
  match l with
  | c :: rest =>
    c.isDigit && startsWithL rest ("1, 2".data) &&
      (let l2 := rest.drop 4
       let sp := l2.takeWhile pyIsSpace
       !sp.isEmpty && startsWithL (l2.drop sp.length) mname)
  | [] => false

def searchBrokenMonth (mname : List Char) : List Char → Bool
  | [] => false
  | c :: rest => matchBrokenMonthAt mname (c :: rest) || searchBrokenMonth mname rest

/-- Exactly `n` digits at the head of `l` (a `\d{n}` atom). -/
def digitTake (l : List Char) (n : Nat) : Option (Nat × List Char) :=
  let ds := l.take n
  if ds.length = n && ds.all Char.isDigit then some (natOfDigits ds, l.drop n) else none

/-- Attempt `(\d{1,2})\.(\d{1,2})\.(\d{<yl>})` at the head of `l`
(greedy `\d{1,2}` with backtracking: two digits tried before one). -/
def matchDMYAt (yl : Nat) (l : List Char) : Option (Nat × Nat × Nat) :=
  let tryMon := fun (l2 : List Char) (d : Nat) (n : Nat) =>
    match digitTake l2 n with
    | some (mo, l3) =>
      match l3 with
      | '.' :: l4 =>
        match digitTake l4 yl with
        | some (y, _) => some (d, mo, y)
        | none => none
      | _ => none
    | none => none
  let tryDay := fun (n : Nat) =>
    match digitTake l n with
    | some (d, l1) =>
      match l1 with
      | '.' :: l2 =>
        match tryMon l2 d 2 with
        | some r => some r
        | none => tryMon l2 d 1
      | _ => none
    | none => none
  match tryDay 2 with
  | some r => some r
  | none => tryDay 1

def searchDMY (yl : Nat) : List Char → Option (Nat × Nat × Nat)
  | [] => none
  | c :: rest =>
    match matchDMYAt yl (c :: rest) with
    | some r => some r
    | none => searchDMY yl rest

/-- Attempt `(\d{1,2})\.(\d{1,2})` at the head of `l`. -/
def matchDMAt (l : List Char) : Option (Nat × Nat) :=
  let tryDay := fun (n : Nat) =>
    match digitTake l n with
    | some (d, l1) =>
      match l1 with
      | '.' :: l2 =>
        match digitTake l2 2 with
        | some (mo, _) => some (d, mo)
        | none =>
          match digitTake l2 1 with
          | some (mo, _) => some (d, mo)
          | none => none
      | _ => none
    | none => none
  match tryDay 2 with
  | some r => some r
  | none => tryDay 1

def searchDM : List Char → Option (Nat × Nat)
  | [] => none
  | c :: rest =>
    match matchDMAt (c :: rest) with
    | some r => some r
    | none => searchDM rest

/-! ## `src/utils/date_parser.py`: the parsing functions -/

/-- The messages carried by `DateParseError` (plus the uncaught `ValueError`
path); the Russian texts are noted next to each constructor. -/
inductive DPMsg
  | noDate            -- "Не указана дата"
  | noTime            -- "Не указано время"
  | badDate           -- "Некорректная дата"
  | notUnderstoodDate -- "Не понял дату. Попробуй: завтра, в пятницу, 15.02"
  | notUnderstoodTime -- "Не понял, когда напомнить. …"
  | datePassed        -- "Эта дата уже прошла. Укажи дату в будущем"
  | timePassed        -- "Это время уже прошло. Укажи время в будущем"
  | minInterval       -- "Минимальный интервал — 1 минута"
  | maxInterval       -- "Максимальный интервал — 3 месяца"
deriving DecidableEq

inductive PyExc
  | dateParse (msg : DPMsg)  -- DateParseError(msg)
  | valueError               -- uncaught ValueError (int() on "<digit>1, 2")
deriving DecidableEq

instance {ε α : Type} [DecidableEq ε] [DecidableEq α] : DecidableEq (Except ε α) := fun x y =>
  match x, y with
  | Except.ok a, Except.ok b =>
    if h : a = b then isTrue (by rw [h]) else isFalse (by simp [h])
  | Except.error a, Except.error b =>
    if h : a = b then isTrue (by rw [h]) else isFalse (by simp [h])
  | Except.ok _, Except.error _ => isFalse (by simp)
  | Except.error _, Except.ok _ => isFalse (by simp)

/-- The `TIME_OF_DAY` fallback of `_extract_time` (its final loop). -/
def extractTimeTod (tl : List Char) : Option (Nat × Nat) × List Char :=
  match TIME_OF_DAY.find? (fun e => hasSub e.1 tl) with
  | some (w, h, m) => (some (h, m), pyStrip (removeAll w tl))
  | none => (none, tl)

/-- Patterns 2 and 3 of `_extract_time`. -/
def extractTimeBareOr (tl : List Char) : Option (Nat × Nat) × List Char :=
  match matchTimeBare tl with
  | some (h, m) => if h ≤ 23 && m ≤ 59 then (some (h, m), []) else extractTimeTod tl
  | none => extractTimeTod tl

/-- `_extract_time(text)`: `(some (hour, minute)` or `none`, remaining text).
If the first `в H[:MM]` match fails its range check the code falls through to
the next pattern (it never tries a later occurrence of the same pattern). -/
def _extract_time (text : List Char) : Option (Nat × Nat) × List Char :=
  let tl := pyStrip (pyLowerStr text)
  match searchTimeV [] tl with
  | some (h, mo, pre, post) =>
    let m := mo.getD 0
    if h ≤ 23 && m ≤ 59 then (some (h, m), pyStrip (pre ++ post))
    else extractTimeBareOr tl
  | none => extractTimeBareOr tl

/-- The word-number loop at the end of `_parse_relative_time`
("через два часа" …); `полчаса` is skipped there. -/
def relWords (now : PyDateTime) (tl : List Char) : List (List Char × Nat) → Option PyDateTime
  | [] => none
  | (w, v) :: rest =>
    if w = "полчаса".data then relWords now tl rest
    else if searchWordSuffix w ("минут".data) tl then some (addMinutes v now)
    else if searchWordSuffix w ("час".data) tl then some (addMinutes (60 * v) now)
    else if searchWordSuffix w ("дн".data) tl then some (setHM (addDays v now) 0 1)
    else relWords now tl rest

/-- `_parse_relative_time(text)`; the numbered pattern list in source order,
then the word-number table. -/
def _parse_relative_time (text : List Char) (now : PyDateTime) : Option PyDateTime :=
  let tl := pyStrip (pyLowerStr text)
  match searchNumSuffix ("минут".data) tl with
  | some v => some (addMinutes v now)
  | none =>
  match searchNumSuffix ("мин".data) tl with
  | some v => some (addMinutes v now)
  | none =>
  if searchLit ("минуту".data) false tl then some (addMinutes 1 now) else
  if searchLit ("минутку".data) false tl then some (addMinutes 1 now) else
  match searchNumSuffix ("час".data) tl with
  | some v => some (addMinutes (60 * v) now)
  | none =>
  if searchLit ("час".data) true tl then some (addMinutes 60 now) else
  if searchLit ("часик".data) false tl then some (addMinutes 60 now) else
  match searchNumSuffix ("дн".data) tl with
  | some v => some (setHM (addDays v now) 0 1)
  | none =>
  match searchNumSuffix ("день".data) tl with
  | some v => some (setHM (addDays v now) 0 1)
  | none =>
  match searchNumSuffix ("дней".data) tl with
  | some v => some (setHM (addDays v now) 0 1)
  | none =>
  if searchLit ("день".data) false tl then some (setHM (addDays 1 now) 0 1) else
  if searchLit ("полчаса".data) false tl then some (addMinutes 30 now) else
  relWords now tl NUMBER_WORDS

/-- `_parse_weekday(text)`: time first (default 00:01), then the first
`WEEKDAYS_RU` key occurring as a substring of the remaining text. -/
def _parse_weekday (text : List Char) (now : PyDateTime) : Option PyDateTime :=
  let tl := pyStrip (pyLowerStr text)
  let tr := _extract_time tl
  let hm := tr.1.getD (0, 1)
  match WEEKDAYS_RU.find? (fun p => hasSub p.1 tr.2) with
  | none => none
  | some (_, w) =>
    let cw := weekday now
    let k := if cw < w then w - cw else w + 7 - cw
    some (setHMS (addDays k now) hm.1 hm.2)

/-- Python `now.replace(year=…, month=…, day=…, hour=…, minute=…, second=0,
microsecond=0)`: `none` models the `ValueError` that `replace` raises on an
out-of-range field. -/
def replaceYMD (y m d h mi : Nat) : Option PyDateTime :=
  if 1 ≤ y && 1 ≤ m && m ≤ 12 && 1 ≤ d && d ≤ daysInMonth y m then
    some ⟨y, m, d, h, mi, 0⟩
  else none

/-- The `D.M[.Y]` construction in `_parse_date_expression`: build the date,
map `ValueError` to `DateParseError("Некорректная дата")`, and (for the
year-less pattern only) move a past date to the next year. -/
def dateFromDMY (y mo d dh dm : Nat) (adjustYear : Bool) (now : PyDateTime) :
    Except PyExc (Option PyDateTime) :=
  match replaceYMD y mo d dh dm with
  | none => Except.error (PyExc.dateParse DPMsg.badDate)
  | some target =>
    if adjustYear && decide (toSec target < toSec now) then
      match replaceYMD (y + 1) mo d dh dm with
      | none => Except.error (PyExc.dateParse DPMsg.badDate)
      | some t2 => Except.ok (some t2)
    else Except.ok (some target)

/-- The keyword/absolute-date part of `_parse_date_expression` (everything
after the "only a time was given" branch). -/
def dateExprMain (rem : List Char) (topt : Option (Nat × Nat)) (now : PyDateTime) :
    Except PyExc (Option PyDateTime) :=
  let dh := (topt.getD (0, 1)).1
  let dm := (topt.getD (0, 1)).2
  if hasSub ("сегодня".data) rem then
    -- hour or 12 / minute or 0: Python truthiness sends hour=None and hour=0 to 12
    let h := match topt with | none => 12 | some (0, _) => 12 | some (h, _) => h
    let m := match topt with | none => 0 | some (_, m) => m
    Except.ok (some (setHMS now h m))
  else if hasSub ("завтра".data) rem then
    Except.ok (some (setHMS (nextDate now) dh dm))
  else if hasSub ("послезавтра".data) rem then
    -- unreachable in practice: "послезавтра" contains "завтра", caught above
    Except.ok (some (setHMS (addDays 2 now) dh dm))
  else if MONTHS_RU.any (fun p => searchBrokenMonth p.1 rem) then
    -- day = int(match.group(1)) runs on "<digit>1, 2" and raises outside the try
    Except.error PyExc.valueError
  else
    match searchDMY 4 rem with
    | some (d, mo, y) => dateFromDMY y mo d dh dm false now
    | none =>
    match searchDMY 2 rem with
    | some (d, mo, y) => dateFromDMY (2000 + y) mo d dh dm false now
    | none =>
    match searchDM rem with
    | some (d, mo) => dateFromDMY now.year mo d dh dm true now
    | none => Except.ok none

/-- `_parse_date_expression(text)`. -/
def _parse_date_expression (text : List Char) (now : PyDateTime) :
    Except PyExc (Option PyDateTime) :=
  let tl := pyStrip (pyLowerStr text)
  let tr := _extract_time tl
  match tr.1 with
  | some (h, m) =>
    if (pyStrip tr.2).isEmpty then
      -- only a time given: today if not yet passed, else tomorrow
      let target := setHMS now h m
      Except.ok (some (if toSec target ≤ toSec now then nextDate target else target))
    else dateExprMain tr.2 tr.1 now
  | none => dateExprMain tr.2 tr.1 now

/-- `parse_deadline(text)`. -/
def parse_deadline (text : List Char) (now : PyDateTime) : Except PyExc PyDateTime :=
  let t := pyStrip text
  if t.isEmpty then Except.error (PyExc.dateParse DPMsg.noDate) else
  let step1 : Except PyExc (Option PyDateTime) :=
    match _parse_relative_time t now with
    | some r => Except.ok (some r)
    | none =>
      match _parse_weekday t now with
      | some r => Except.ok (some r)
      | none => _parse_date_expression t now
  match step1 with
  | Except.error e => Except.error e
  | Except.ok none => Except.error (PyExc.dateParse DPMsg.notUnderstoodDate)
  | Except.ok (some r) =>
    if toSec r ≤ toSec now then Except.error (PyExc.dateParse DPMsg.datePassed)
    else Except.ok r

/-- The resolution phase of `parse_reminder_time` (everything before the
past/minimum/maximum checks): relative, then weekday with the 00:01 → 12:00
default, then the bare time-of-day words, then `_parse_date_expression` with
the hour-absent → 12:00 default. -/
def reminderResolve (t : List Char) (now : PyDateTime) : Except PyExc (Option PyDateTime) :=
  match _parse_relative_time t now with
  | some r => Except.ok (some r)
  | none =>
  match _parse_weekday t now with
  | some r =>
    Except.ok (some (if r.hour = 0 && r.minute = 1 then setHM r 12 0 else r))
  | none =>
    match TIME_OF_DAY.find? (fun e => hasSub e.1 (pyLowerStr t)) with
    | some (_, h, m) =>
      Except.ok (some (if toSec (setHMS now h m) ≤ toSec now
        then setHMS (nextDate now) h m else setHMS now h m))
    | none =>
      let ht := _extract_time t
      match _parse_date_expression t now with
      | Except.error e => Except.error e
      | Except.ok none => Except.ok none
      | Except.ok (some r) =>
        Except.ok (some (match ht.1 with | none => setHM r 12 0 | some _ => r))

def MAX_REMINDER_MONTHS : Nat := 3  -- config: settings.max_reminder_months

/-- `parse_reminder_time(text)`. -/
def parse_reminder_time (text : List Char) (now : PyDateTime) : Except PyExc PyDateTime :=
  let t := pyStrip text
  if t.isEmpty then Except.error (PyExc.dateParse DPMsg.noTime) else
  match reminderResolve t now with
  | Except.error e => Except.error e
  | Except.ok none => Except.error (PyExc.dateParse DPMsg.notUnderstoodTime)
  | Except.ok (some r) =>
    if toSec r ≤ toSec now then Except.error (PyExc.dateParse DPMsg.timePassed)
    else if toSec r - toSec now < 60 then Except.error (PyExc.dateParse DPMsg.minInterval)
    else if MAX_REMINDER_MONTHS * 30 * 86400 < toSec r - toSec now then
      Except.error (PyExc.dateParse DPMsg.maxInterval)
    else Except.ok r

/-! ## `src/utils/categories.py` -/

def CATEGORY_KEYWORDS : List (List Char × List (List Char)) := [
  ("Транспорт".data, [
    "такси".data, "uber".data, "яндекс.такси".data, "яндекс такси".data, "ситимобил".data,
    "метро".data, "автобус".data, "троллейбус".data, "трамвай".data, "маршрутка".data,
    "бензин".data, "заправка".data, "топливо".data, "азс".data,
    "парковка".data, "стоянка".data,
    "поезд".data, "электричка".data, "жд".data, "ржд".data,
    "самолёт".data, "самолет".data, "авиа".data, "билет".data,
    "каршеринг".data, "аренда авто".data, "прокат".data]),
  ("Еда".data, [
    "обед".data, "завтрак".data, "ужин".data, "еда".data, "перекус".data,
    "кофе".data, "чай".data, "напитки".data,
    "ресторан".data, "кафе".data, "столовая".data, "буфет".data,
    "доставка еды".data, "delivery".data, "яндекс.еда".data, "яндекс еда".data,
    "деливери клаб".data, "delivery club".data,
    "продукты".data, "магазин".data, "супермаркет".data,
    "пицца".data, "суши".data, "роллы".data, "бургер".data, "фастфуд".data]),
  ("Канцелярия".data, [
    "бумага".data, "ручка".data, "ручки".data, "карандаш".data, "карандаши".data,
    "блокнот".data, "тетрадь".data, "записная книжка".data,
    "степлер".data, "скрепки".data, "кнопки".data, "скотч".data,
    "папка".data, "файл".data, "файлы".data, "конверт".data, "конверты".data,
    "расходники".data, "канцтовары".data, "канцелярия".data,
    "картридж".data, "тонер".data, "чернила".data,
    "маркер".data, "маркеры".data, "фломастер".data, "фломастеры".data,
    "ножницы".data, "линейка".data, "ластик".data]),
  ("Оборудование".data, [
    "компьютер".data, "ноутбук".data, "монитор".data, "клавиатура".data, "мышь".data, "мышка".data,
    "принтер".data, "сканер".data, "мфу".data,
    "телефон".data, "смартфон".data, "планшет".data,
    "наушники".data, "гарнитура".data, "веб-камера".data, "вебкамера".data,
    "кабель".data, "провод".data, "зарядка".data, "зарядное".data,
    "флешка".data, "usb".data, "жёсткий диск".data, "жесткий диск".data, "ssd".data, "hdd".data,
    "роутер".data, "маршрутизатор".data, "модем".data,
    "мебель".data, "стол".data, "стул".data, "кресло".data, "шкаф".data,
    "лампа".data, "светильник".data, "освещение".data]),
  ("Связь".data, [
    "телефон".data, "мобильный".data, "сотовый".data, "симка".data, "sim".data,
    "интернет".data, "wifi".data, "вай-фай".data, "вайфай".data,
    "тариф".data, "абонентская плата".data, "связь".data,
    "мтс".data, "билайн".data, "мегафон".data, "теле2".data, "yota".data,
    "роуминг".data]),
  ("Подписки".data, [
    "подписка".data, "subscription".data,
    "netflix".data, "spotify".data, "apple music".data,
    "облако".data, "cloud".data, "яндекс.диск".data, "google drive".data, "dropbox".data,
    "zoom".data, "slack".data, "notion".data, "figma".data,
    "хостинг".data, "домен".data, "сервер".data, "vps".data]),
  ("Услуги".data, [
    "услуга".data, "сервис".data, "обслуживание".data,
    "ремонт".data, "починка".data,
    "уборка".data, "клининг".data,
    "доставка".data, "курьер".data,
    "консультация".data, "юрист".data, "бухгалтер".data,
    "перевод".data, "нотариус".data])]

/-- One position of the `re.search(rf"\b{kw}\b", l)` scan: `kw` starts here,
the previous character (tracked by `prevWord`) is not a word character, and
the character after the occurrence (if any) is not a word character.  (All
keywords this is applied to consist of word characters, for which this is
exactly `\b…\b`.) -/
def boundMatchAt (kw : List Char) (prevWord : Bool) (l : List Char) : Bool :=
  startsWithL l kw && !prevWord &&
    (match l.drop kw.length with
     | [] => true
     | c :: _ => !pyIsWord c)

def boundSearchAux (kw : List Char) (prevWord : Bool) : List Char → Bool
  | [] => false
  | c :: rest => boundMatchAt kw prevWord (c :: rest) || boundSearchAux kw (pyIsWord c) rest

/-- Keyword match as in `categorize_expense`: whole-word boundaries for
keywords of length ≤ 3, plain substring containment otherwise. -/
def kwMatch (dl kw : List Char) : Bool :=
  if kw.length ≤ 3 then boundSearchAux kw false dl else hasSub kw dl

/-- The category loop of `categorize_expense` (first category with any
matching keyword wins; early `return` ≡ `List.any`). -/
def categorizeGo (dl : List Char) : List (List Char × List (List Char)) → List Char
  | [] => "Прочее".data
  | (cat, kws) :: rest =>
    if kws.any (fun kw => kwMatch dl kw) then cat else categorizeGo dl rest

def categorize_expense (description : List Char) : List Char :=
  categorizeGo (pyLowerStr description) CATEGORY_KEYWORDS

/-- "The character standing immediately before the matched occurrence is not
a word character": `pre` is the text before the occurrence and `prev` the
word-ness of the character before all of it. -/
def lastWordOk (prev : Bool) : List Char → Prop
  | [] => prev = false
  | c :: rest => lastWordOk (pyIsWord c) rest

/-- "The character immediately after the matched occurrence (if any) is not a
word character." -/
def headOk : List Char → Prop
  | [] => True
  | c :: _ => pyIsWord c = false

/-! ## `src/utils/permissions.py` -/

structure DbUser where
  id : Int
  is_global_admin : Bool
deriving DecidableEq

structure DbChatMember where
  user_id : Int
  chat_id : Int
  is_admin : Bool
  left_at : Option Nat
deriving DecidableEq

/-- The state `is_admin` consults: `settings.initial_admins`, the `users`
table and the `chat_members` table (`find?` models `scalar_one_or_none`). -/
structure Db where
  initial_admins : List Int
  users : List DbUser
  members : List DbChatMember

def is_admin (db : Db) (user_id : Int) (chat_id : Option Int) : Bool :=
  if db.initial_admins.contains user_id then true
  else if (db.users.find? (fun u => u.id == user_id)).elim false
      (fun u => u.is_global_admin) then true
  else
    match chat_id with
    | some c =>
      -- `if chat_id:` — Python truthiness also skips chat_id = 0
      if c ≠ 0 then
        (db.members.find? (fun m =>
            m.user_id == user_id && m.chat_id == c && m.left_at == none)).elim
          false (fun m => m.is_admin)
      else false
    | none => false

inductive TaskStatus | OPEN | CLOSED
deriving DecidableEq

/-- `RecurrenceType`.  `database/models.py` declares NONE, DAILY, WEEKDAYS,
WEEKLY, MONTHLY; `handlers/tasks.py` additionally references the
`WEEKLY_<day>` members (its `weekly_day_map`), so they are included here. -/
inductive RecurrenceType
  | NONE | DAILY | WEEKDAYS | WEEKLY
  | WEEKLY_MONDAY | WEEKLY_TUESDAY | WEEKLY_WEDNESDAY | WEEKLY_THURSDAY
  | WEEKLY_FRIDAY | WEEKLY_SATURDAY | WEEKLY_SUNDAY
  | MONTHLY
deriving DecidableEq

structure Task where
  id : Nat
  chat_id : Int
  author_id : Int
  assignee_id : Int
  text : List Char
  deadline : Option PyDateTime
  status : TaskStatus
  recurrence : RecurrenceType
  parent_task_id : Option Nat
  recurrence_active : Bool
deriving DecidableEq

/-- `can_close_task`: assignee, author, or admin. -/
def can_close_task (db : Db) (user_id : Int) (task : Task) : Bool :=
  if user_id == task.assignee_id || user_id == task.author_id then true
  else is_admin db user_id (some task.chat_id)

/-- `can_edit_task`: author or admin (assignee alone cannot edit). -/
def can_edit_task (db : Db) (user_id : Int) (task : Task) : Bool :=
  if user_id == task.author_id then true
  else is_admin db user_id (some task.chat_id)

/-! ## `src/handlers/ask.py`: the daily quota -/

def DAILY_LIMIT : Nat := 10

structure AskUsage where
  user_id : Int
  usage_date : Int
  count : Nat
deriving DecidableEq

def askFind (rows : List AskUsage) (uid d : Int) : Option AskUsage :=
  rows.find? (fun r => r.user_id == uid && r.usage_date == d)

def askIncrement (uid d : Int) : List AskUsage → List AskUsage
  | [] => []
  | r :: rs =>
    if r.user_id == uid && r.usage_date == d then { r with count := r.count + 1 } :: rs
    else r :: askIncrement uid d rs

/-- The quota bookkeeping of `_process_question`: look up today's `AskUsage`
row; at or above `DAILY_LIMIT` reply with the fixed quota message (second
component `false`: no increment, no LLM call); otherwise increment (or create
the row with count 1) and call the LLM (`true`). -/
def _process_question (rows : List AskUsage) (uid today : Int) : List AskUsage × Bool :=
  match askFind rows uid today with
  | some usage =>
    if DAILY_LIMIT ≤ usage.count then (rows, false)
    else (askIncrement uid today rows, true)
  | none => (rows ++ [⟨uid, today, 1⟩], true)

/-- `n` consecutive accepted-or-rejected questions by one user on one day,
starting from an empty table. -/
def askRun (uid d : Int) : Nat → List AskUsage
  | 0 => []
  | n + 1 => (_process_question (askRun uid d n) uid d).1

/-! ## `src/handlers/tasks.py`: `_create_next_recurring_task` -/

def weeklyDayMap : RecurrenceType → Option Nat
  | RecurrenceType.WEEKLY_MONDAY => some 0
  | RecurrenceType.WEEKLY_TUESDAY => some 1
  | RecurrenceType.WEEKLY_WEDNESDAY => some 2
  | RecurrenceType.WEEKLY_THURSDAY => some 3
  | RecurrenceType.WEEKLY_FRIDAY => some 4
  | RecurrenceType.WEEKLY_SATURDAY => some 5
  | RecurrenceType.WEEKLY_SUNDAY => some 6
  | _ => none

/-- `while next_deadline.weekday() >= 5: next_deadline += timedelta(days=1)`
with explicit fuel; fuel 7 always reaches the loop's fixpoint (proved below),
so this is the loop's exact semantics. -/
def skipWeekend : Nat → PyDateTime → PyDateTime
  | 0, d => d
  | fuel + 1, d => if 5 ≤ weekday d then skipWeekend fuel (nextDate d) else d

/-- `while next_deadline.weekday() != target_weekday: … += timedelta(days=1)`
with explicit fuel (fuel 7 always suffices, proved below). -/
def seekWeekday (target : Nat) : Nat → PyDateTime → PyDateTime
  | 0, d => d
  | fuel + 1, d => if weekday d ≠ target then seekWeekday target fuel (nextDate d) else d

/-- `relativedelta(months=1)`: advance one calendar month, clamping the
day-of-month to the target month's length. -/
def addMonthClamp (d : PyDateTime) : PyDateTime :=
  if d.month = 12 then
    { d with year := d.year + 1, month := 1, day := min d.day (daysInMonth (d.year + 1) 1) }
  else
    { d with month := d.month + 1, day := min d.day (daysInMonth d.year (d.month + 1)) }

/-- `_create_next_recurring_task(session, task)`: `none` means no row is
inserted; `some t'` is the single row added via `session.add` (`newId` stands
for the autoincrement id the flush would assign). -/
def _create_next_recurring_task (task : Task) (newId : Nat) : Option Task :=
  if task.recurrence = RecurrenceType.NONE then none
  else if task.recurrence_active = false then none
  else
    match task.deadline with
    | none => none
    | some dl =>
      let nd? : Option PyDateTime :=
        match task.recurrence with
        | RecurrenceType.DAILY => some (nextDate dl)
        | RecurrenceType.WEEKDAYS => some (skipWeekend 7 (nextDate dl))
        | RecurrenceType.WEEKLY => some (addDays 7 dl)
        | RecurrenceType.MONTHLY => some (addMonthClamp dl)
        | r =>
          match weeklyDayMap r with
          | some w => some (seekWeekday w 7 (nextDate dl))
          | none => none
      match nd? with
      | none => none
      | some nd =>
        some { id := newId
               chat_id := task.chat_id
               author_id := task.author_id
               assignee_id := task.assignee_id
               text := task.text
               deadline := some nd
               status := TaskStatus.OPEN       -- model default
               recurrence := task.recurrence
               -- `task.parent_task_id or task.id` (Python truthiness)
               parent_task_id := some (match task.parent_task_id with
                 | some p => if p ≠ 0 then p else task.id
                 | none => task.id)
               recurrence_active := true }

/-! ## `src/llm/summarizer.py`: input truncation -/

def MAX_INPUT_CHARS : Nat := 12000  -- max_input_chars in summarize_messages

def truncMarker : List Char := '\n' :: "...(сообщения обрезаны)".data

/-- `"\n".join(messages)`. -/
def joinNL : List (List Char) → List Char
  | [] => []
  | [m] => m
  | m :: rest => m ++ '\n' :: joinNL rest

/-- The conversation text `summarize_messages` hands to the LLM (the user
message wraps it in a fixed request template). -/
def summaryConversation (messages : List (List Char)) : List Char :=
  let conversation := joinNL messages
  if MAX_INPUT_CHARS < conversation.length then
    conversation.take MAX_INPUT_CHARS ++ truncMarker
  else conversation

/-! ## Calendar arithmetic lemmas -/

theorem daysInMonth_pos (y m : Nat) : 1 ≤ daysInMonth y m := by
  unfold daysInMonth
  split
  · split <;> omega
  · split <;> omega

theorem daysInMonth_le (y m : Nat) : daysInMonth y m ≤ 31 := by
  unfold daysInMonth
  split
  · split <;> omega
  · split <;> omega

theorem validDT_nextDate {d : PyDateTime} (h : ValidDT d) : ValidDT (nextDate d) := by
  obtain ⟨hy, hm1, hm2, hd1, hd2, hh, hmin, hs⟩ := h
  have p1 := daysInMonth_pos d.year (d.month + 1)
  have p2 := daysInMonth_pos (d.year + 1) 1
  unfold nextDate ValidDT
  split
  · dsimp only
    omega
  · split
    · dsimp only
      omega
    · dsimp only
      omega

theorem daysBeforeMonth_succ (y m : Nat) (h : 1 ≤ m) :
    daysBeforeMonth y (m + 1) = daysBeforeMonth y m + daysInMonth y m := by
  match m, h with
  | 1, _ => simp [daysBeforeMonth]
  | k + 2, _ => rfl

theorem daysBeforeMonth_13 (y : Nat) :
    daysBeforeMonth y 13 = 365 + (if isLeap y then 1 else 0) := by
  by_cases h : isLeap y <;>
    simp [daysBeforeMonth, daysInMonth, h]

theorem leapCount_succ (y : Nat) :
    leapCount (y + 1) = leapCount y + (if isLeap (y + 1) then 1 else 0) := by
  unfold leapCount
  rw [Nat.succ_div y 4, Nat.succ_div y 100, Nat.succ_div y 400]
  have e1 : y / 100 ≤ y / 4 := Nat.div_le_div_left (by norm_num) (by norm_num)
  have hiff : (isLeap (y + 1) = true) ↔
      (((y + 1) % 4 = 0 ∧ (y + 1) % 100 ≠ 0) ∨ (y + 1) % 400 = 0) := by
    simp [isLeap]
  simp only [Nat.dvd_iff_mod_eq_zero]
  by_cases h4 : (y + 1) % 4 = 0 <;> by_cases h100 : (y + 1) % 100 = 0 <;>
    by_cases h400 : (y + 1) % 400 = 0 <;>
      simp only [h4, h100, h400, hiff, ne_eq, not_false_iff, not_true, if_true, if_false,
        if_pos, if_neg, and_true, and_false, or_true, or_false, false_or, true_or,
        iff_true, iff_false, reduceIte] <;>
        omega

theorem daysBeforeYear_succ (y : Nat) (h : 1 ≤ y) :
    daysBeforeYear (y + 1) = daysBeforeYear y + 365 + (if isLeap y then 1 else 0) := by
  unfold daysBeforeYear
  have hc : leapCount y = leapCount (y - 1) + (if isLeap y then 1 else 0) := by
    have hy : y - 1 + 1 = y := by omega
    have := leapCount_succ (y - 1)
    rw [hy] at this
    exact this
  simp only [Nat.add_sub_cancel]
  split at hc <;> split <;> simp_all <;> omega

theorem toDayNumber_nextDate {d : PyDateTime} (h : ValidDT d) :
    toDayNumber (nextDate d) = toDayNumber d + 1 := by
  obtain ⟨hy, hm1, hm2, hd1, hd2, _, _, _⟩ := h
  unfold nextDate
  split
  · unfold toDayNumber
    dsimp only
    omega
  · split
    · unfold toDayNumber
      dsimp only
      have hs := daysBeforeMonth_succ d.year d.month hm1
      omega
    · rename_i hnlt hnm
      have hm : d.month = 12 := by omega
      have hdim : daysInMonth d.year 12 = 31 := by simp [daysInMonth]
      have hday : d.day = 31 := by
        rw [hm] at hd2 hnlt
        rw [hdim] at hd2 hnlt
        omega
      unfold toDayNumber
      dsimp only
      have hs := daysBeforeMonth_succ d.year 12 (by omega)
      have h13 := daysBeforeMonth_13 d.year
      have hby := daysBeforeYear_succ d.year hy
      rw [hm, hday]
      have hb1 : daysBeforeMonth (d.year + 1) 1 = 0 := rfl
      split at h13 <;> split at hby <;> simp_all

theorem weekday_lt (d : PyDateTime) : weekday d < 7 := Nat.mod_lt _ (by norm_num)

theorem weekday_nextDate {d : PyDateTime} (h : ValidDT d) :
    weekday (nextDate d) = (weekday d + 1) % 7 := by
  unfold weekday
  rw [toDayNumber_nextDate h]
  omega

theorem validDT_addDays {d : PyDateTime} (k : Nat) (h : ValidDT d) : ValidDT (addDays k d) := by
  induction k generalizing d with
  | zero => exact h
  | succ n ih => exact ih (validDT_nextDate h)

theorem toDayNumber_addDays {d : PyDateTime} (k : Nat) (h : ValidDT d) :
    toDayNumber (addDays k d) = toDayNumber d + k := by
  induction k generalizing d with
  | zero => rfl
  | succ n ih =>
    show toDayNumber (addDays n (nextDate d)) = _
    rw [ih (validDT_nextDate h), toDayNumber_nextDate h]
    omega

theorem weekday_addDays {d : PyDateTime} (k : Nat) (h : ValidDT d) :
    weekday (addDays k d) = (weekday d + k) % 7 := by
  unfold weekday
  rw [toDayNumber_addDays k h]
  omega

theorem toDayNumber_setHMS (d : PyDateTime) (h m : Nat) :
    toDayNumber (setHMS d h m) = toDayNumber d := rfl

theorem weekday_setHMS (d : PyDateTime) (h m : Nat) :
    weekday (setHMS d h m) = weekday d := rfl

theorem toSec_lower (d : PyDateTime) : toDayNumber d * 86400 ≤ toSec d := by
  unfold toSec
  omega

theorem toSec_upper {d : PyDateTime} (h : ValidDT d) :
    toSec d < toDayNumber d * 86400 + 86400 := by
  obtain ⟨_, _, _, _, _, hh, hmin, hs⟩ := h
  unfold toSec
  omega

/-- A datetime on a strictly later day is strictly later. -/
theorem toSec_lt_of_dayNumber_lt {a b : PyDateTime} (ha : ValidDT a)
    (h : toDayNumber a < toDayNumber b) : toSec a < toSec b := by
  have h1 := toSec_upper ha
  have h2 := toSec_lower b
  nlinarith


theorem is_admin_false_of_pointwise (db : Db) (uid : Int) (c : Int)
    (h1 : db.initial_admins.contains uid = false)
    (h2 : ∀ u ∈ db.users, u.id = uid → u.is_global_admin = false)
    (h3 : ∀ m ∈ db.members, m.user_id = uid → m.is_admin = false) :
    is_admin db uid (some c) = false := by
  unfold is_admin
  rw [h1]
  simp only [Bool.false_eq_true, if_false]
  have hu : (db.users.find? (fun u => u.id == uid)).elim false (fun u => u.is_global_admin) = false := by
    cases hf : db.users.find? (fun u => u.id == uid) with
    | none => rfl
    | some u =>
      have hmem := List.mem_of_find?_eq_some hf
      have hpred := List.find?_some hf
      simp only [beq_iff_eq] at hpred
      simpa using h2 u hmem hpred
  rw [hu]
  simp only [Bool.false_eq_true, if_false]
  split
  · rename_i hcne
    cases hf : db.members.find? (fun m => m.user_id == uid && m.chat_id == c && m.left_at == none) with
    | none => rfl
    | some m =>
      have hmem := List.mem_of_find?_eq_some hf
      have hpred := List.find?_some hf
      simp only [Bool.and_eq_true, beq_iff_eq] at hpred
      simpa using h3 m hmem hpred.1.1
  · rfl

/-- C1: `can_close_task` is exactly assignee-or-author-or-admin and
`can_edit_task` is exactly author-or-admin; an assignee who is neither author
nor admin can close but not edit; a chat member with no admin rights of any
kind who is neither assignee nor author can do neither. -/
theorem C1_permissions (db : Db) (uid : Int) (t : Task) :
    (can_close_task db uid t = true ↔
      (uid = t.assignee_id ∨ uid = t.author_id ∨ is_admin db uid (some t.chat_id) = true)) ∧
    (can_edit_task db uid t = true ↔
      (uid = t.author_id ∨ is_admin db uid (some t.chat_id) = true)) ∧
    (uid = t.assignee_id → uid ≠ t.author_id → is_admin db uid (some t.chat_id) = false →
      can_close_task db uid t = true ∧ can_edit_task db uid t = false) ∧
    (uid ≠ t.assignee_id → uid ≠ t.author_id →
      db.initial_admins.contains uid = false →
      (∀ u ∈ db.users, u.id = uid → u.is_global_admin = false) →
      (∀ m ∈ db.members, m.user_id = uid → m.is_admin = false) →
      can_close_task db uid t = false ∧ can_edit_task db uid t = false) := by
  unfold can_close_task can_edit_task
  refine ⟨?_, ?_, ?_, ?_⟩
  · by_cases ha : uid = t.assignee_id <;> by_cases hb : uid = t.author_id <;>
      simp [ha, hb]
  · by_cases hb : uid = t.author_id <;> simp [hb]
  · intro ha hb hadm
    subst ha
    simp [hb, hadm]
  · intro ha hb h1 h2 h3
    have hadm := is_admin_false_of_pointwise db uid t.chat_id h1 h2 h3
    simp [ha, hb, hadm]

theorem C1_permissions_witness :
    (can_close_task ⟨[], [⟨2, false⟩, ⟨4, false⟩], [⟨4, 100, false, none⟩]⟩ 2
        ⟨1, 100, 1, 2, [], none, TaskStatus.OPEN, RecurrenceType.NONE, none, false⟩ = true ∧
      can_edit_task ⟨[], [⟨2, false⟩, ⟨4, false⟩], [⟨4, 100, false, none⟩]⟩ 2
        ⟨1, 100, 1, 2, [], none, TaskStatus.OPEN, RecurrenceType.NONE, none, false⟩ = false) ∧
    (can_close_task ⟨[], [⟨2, false⟩, ⟨4, false⟩], [⟨4, 100, false, none⟩]⟩ 4
        ⟨1, 100, 1, 2, [], none, TaskStatus.OPEN, RecurrenceType.NONE, none, false⟩ = false ∧
      can_edit_task ⟨[], [⟨2, false⟩, ⟨4, false⟩], [⟨4, 100, false, none⟩]⟩ 4
        ⟨1, 100, 1, 2, [], none, TaskStatus.OPEN, RecurrenceType.NONE, none, false⟩ = false) := by
  constructor
  · exact (C1_permissions _ 2 _).2.2.1 rfl (by decide) (by decide)
  · exact (C1_permissions _ 4 _).2.2.2 (by decide) (by decide) (by decide)
      (by decide) (by decide)

theorem askRun_closed (uid d : Int) :
    ∀ n, 1 ≤ n → askRun uid d n = [⟨uid, d, min n DAILY_LIMIT⟩] := by
  intro n
  induction n with
  | zero => omega
  | succ k ih =>
    intro _
    by_cases hk : 1 ≤ k
    · have hrows := ih hk
      show (_process_question (askRun uid d k) uid d).1 = _
      rw [hrows]
      unfold _process_question askFind askIncrement
      simp only [List.find?_cons, beq_self_eq_true, Bool.and_self, if_true]
      by_cases hlim : DAILY_LIMIT ≤ min k DAILY_LIMIT
      · have h1 : min k DAILY_LIMIT = DAILY_LIMIT := by
          unfold DAILY_LIMIT at *
          omega
        have h2 : min (k + 1) DAILY_LIMIT = DAILY_LIMIT := by
          unfold DAILY_LIMIT at *
          omega
        simp [hlim, h1, h2]
      · have h2 : min (k + 1) DAILY_LIMIT = min k DAILY_LIMIT + 1 := by
          unfold DAILY_LIMIT at *
          omega
        simp [hlim, h2]
    · have hk0 : k = 0 := by omega
      subst hk0
      show (_process_question [] uid d).1 = _
      unfold _process_question askFind
      simp [DAILY_LIMIT]

/-- C2 as stated is false on the code: the daily limit is 10, not 2 — from an
empty table, the third question of the day is still answered (the LLM branch
runs and the counter rises to 3). -/
theorem C2_quota_counterexample :
    (_process_question (askRun 7 11 2) 7 11).2 = true ∧
    (_process_question (askRun 7 11 2) 7 11).1 = [⟨7, 11, 3⟩] := by
  constructor <;> rfl

/-- C2 (amended: limit 10): for one user and one calendar day, the Nth
accepted question is answered exactly when N ≤ 10 (`DAILY_LIMIT`); while
answered, the counter for that day rises to N; above the limit the handler
replies with the fixed quota message, does not increment, and does not call
the LLM; a question on a different `usage_date` misses the row and is
answered again. -/
theorem C2_quota (uid d : Int) (n : Nat) (hn : 1 ≤ n) :
    ((_process_question (askRun uid d (n - 1)) uid d).2 = true ↔ n ≤ DAILY_LIMIT) ∧
    (n ≤ DAILY_LIMIT → askRun uid d n = [⟨uid, d, n⟩]) ∧
    (DAILY_LIMIT < n → askRun uid d n = [⟨uid, d, DAILY_LIMIT⟩] ∧
      (_process_question (askRun uid d n) uid d).2 = false ∧
      (_process_question (askRun uid d n) uid d).1 = askRun uid d n) ∧
    (∀ d', d' ≠ d → (_process_question (askRun uid d n) uid d').2 = true) := by
  have hclosed := askRun_closed uid d
  refine ⟨?_, ?_, ?_, ?_⟩
  · by_cases h1 : 1 ≤ n - 1
    · rw [hclosed (n - 1) h1]
      unfold _process_question askFind DAILY_LIMIT
      simp only [List.find?_cons, beq_self_eq_true, Bool.and_self, if_true]
      dsimp only
      split
      · rename_i hlim
        simp only [Bool.false_eq_true, false_iff]
        omega
      · rename_i hlim
        simp only [true_iff]
        omega
    · have h0 : n - 1 = 0 := by omega
      rw [h0]
      show ((_process_question [] uid d).2 = true ↔ _)
      unfold _process_question askFind DAILY_LIMIT
      simp
      omega
  · intro hle
    rw [hclosed n hn]
    have hmin : min n DAILY_LIMIT = n := by
      unfold DAILY_LIMIT at *
      omega
    rw [hmin]
  · intro hgt
    have h1 : min n DAILY_LIMIT = DAILY_LIMIT := by
      unfold DAILY_LIMIT at *
      omega
    have h2 := hclosed n hn
    rw [h1] at h2
    refine ⟨h2, ?_, ?_⟩ <;>
      rw [h2] <;>
        unfold _process_question askFind <;>
          simp [DAILY_LIMIT]
  · intro d' hd'
    rw [hclosed n hn]
    unfold _process_question askFind
    have hne : ¬ (d = d') := fun h => hd' h.symm
    simp [hne]

theorem C2_quota_witness :
    ((_process_question (askRun 1 0 9) 1 0).2 = true ↔ (10 : Nat) ≤ DAILY_LIMIT) ∧
    ((10 : Nat) ≤ DAILY_LIMIT → askRun 1 0 10 = [⟨1, 0, 10⟩]) ∧
    (DAILY_LIMIT < 10 → askRun 1 0 10 = [⟨1, 0, DAILY_LIMIT⟩] ∧
      (_process_question (askRun 1 0 10) 1 0).2 = false ∧
      (_process_question (askRun 1 0 10) 1 0).1 = askRun 1 0 10) ∧
    (∀ d', d' ≠ 0 → (_process_question (askRun 1 0 10) 1 d').2 = true) :=
  C2_quota 1 0 10 (by norm_num)

theorem truncMarker_length : truncMarker.length = 24 := by decide

/-- C9 as stated is false on the code: the truncation threshold is 12,000
characters, not 8,000 — a single 9,000-character message exceeds 8,000 yet is
passed to the LLM unmodified, with no marker appended. -/
theorem C9_truncation_counterexample :
    8000 < (joinNL [List.replicate 9000 'a']).length ∧
    summaryConversation [List.replicate 9000 'a'] = List.replicate 9000 'a' ∧
    summaryConversation [List.replicate 9000 'a'] ≠
      (joinNL [List.replicate 9000 'a']).take 8000 ++ truncMarker := by
  have hj : joinNL [List.replicate 9000 'a'] = List.replicate 9000 'a' := rfl
  have hlen : (List.replicate 9000 'a').length = 9000 := List.length_replicate _ _
  have heq : summaryConversation [List.replicate 9000 'a'] = List.replicate 9000 'a' := by
    unfold summaryConversation MAX_INPUT_CHARS
    rw [hj]
    rw [if_neg (by rw [hlen]; norm_num)]
  refine ⟨by rw [hj, hlen]; norm_num, heq, ?_⟩
  intro hcontra
  rw [heq, hj] at hcontra
  have hlc := congrArg List.length hcontra
  rw [hlen, List.length_append, List.length_take, hlen, truncMarker_length] at hlc
  omega

/-- C9 (amended: threshold 12,000): whenever the newline-joined conversation
exceeds 12,000 characters, the text passed to the LLM is its first 12,000
characters with the "\n...(сообщения обрезаны)" marker appended (total length
12,000 + 24); at or below 12,000 characters it is passed unmodified. -/
theorem C9_truncation (messages : List (List Char)) :
    ((joinNL messages).length ≤ 12000 → summaryConversation messages = joinNL messages) ∧
    (12000 < (joinNL messages).length →
      summaryConversation messages = (joinNL messages).take 12000 ++ truncMarker ∧
      (summaryConversation messages).length = 12000 + truncMarker.length) := by
  unfold summaryConversation MAX_INPUT_CHARS
  constructor
  · intro hle
    rw [if_neg (by omega)]
  · intro hgt
    rw [if_pos hgt]
    refine ⟨rfl, ?_⟩
    rw [List.length_append, List.length_take]
    omega

theorem C9_truncation_witness :
    12000 < (joinNL [List.replicate 12001 'b']).length ∧
    (summaryConversation [List.replicate 12001 'b']).length = 12000 + truncMarker.length := by
  have h : 12000 < (joinNL [List.replicate 12001 'b']).length := by
    show 12000 < (List.replicate 12001 'b').length
    rw [List.length_replicate]
    norm_num
  exact ⟨h, ((C9_truncation [List.replicate 12001 'b']).2 h).2⟩

/-- C10: a recurring, active task whose deadline is unset produces no
successor — `_create_next_recurring_task` returns `None` before reaching the
`session.add`, so no row is inserted and the series ends. -/
theorem C10_no_deadline_no_successor (t : Task) (newId : Nat)
    (h1 : t.recurrence ≠ RecurrenceType.NONE) (h2 : t.recurrence_active = true)
    (h3 : t.deadline = none) :
    _create_next_recurring_task t newId = none := by
  unfold _create_next_recurring_task
  rw [if_neg h1, h2]
  simp [h3]

theorem C10_no_deadline_no_successor_witness :
    (RecurrenceType.DAILY ≠ RecurrenceType.NONE ∧
      (⟨1, 5, 2, 3, [], none, TaskStatus.OPEN, RecurrenceType.DAILY, none, true⟩ :
        Task).recurrence_active = true) ∧
    _create_next_recurring_task
      ⟨1, 5, 2, 3, [], none, TaskStatus.OPEN, RecurrenceType.DAILY, none, true⟩ 9 = none :=
  ⟨⟨by decide, rfl⟩,
    C10_no_deadline_no_successor _ 9 (by decide) rfl rfl⟩

/-- C5 is false on the code (and the code contradicts its own docstring
`"завтра" -> next day at 00:01`): the weekday scan of `_parse_weekday` runs
before `_parse_date_expression`, and the two-letter Tuesday key "вт" of
`WEEKDAYS_RU` occurs as a substring of "завтра", so on Wednesday 2025-01-01
10:00 the parser returns the next Tuesday, 2025-01-07 00:01 — six days ahead
instead of one.  ("сегодня" separately defaults to 12:00, not 00:01, via
`hour or 12`.) -/
theorem C5_zavtra_failing_input :
    weekday ⟨2025, 1, 1, 10, 0, 0⟩ = 2 ∧
    parse_deadline ("завтра".data) ⟨2025, 1, 1, 10, 0, 0⟩ =
      Except.ok ⟨2025, 1, 7, 0, 1, 0⟩ ∧
    parse_deadline ("сегодня".data) ⟨2025, 1, 1, 10, 0, 0⟩ =
      Except.ok ⟨2025, 1, 1, 12, 0, 0⟩ := by
  refine ⟨by decide, by decide, by decide⟩

/-- C6 is false on the code (and the code contradicts its own docstring,
which lists "15 января" as a parsed example): the month pattern is built with
`rf"(\d{1,2})\s+{month_name}"`, an f-string in which `{1,2}` is a replacement
field evaluating the tuple `(1, 2)`; the compiled regex demands the literal
text `1, 2` after the digit, so "15 января" never matches and falls through
to the generic didn't-understand-the-date error. -/
theorem C6_month_name_failing_input :
    parse_deadline ("15 января".data) ⟨2025, 1, 1, 10, 0, 0⟩ =
      Except.error (PyExc.dateParse DPMsg.notUnderstoodDate) ∧
    parse_deadline ("1 мая".data) ⟨2025, 1, 1, 10, 0, 0⟩ =
      Except.error (PyExc.dateParse DPMsg.notUnderstoodDate) := by
  refine ⟨by decide, by decide⟩

/-- C4: `parse_reminder_time` enforces both interval bounds on the resolved
timestamp: a strictly-future resolution less than 60 seconds ahead fails with
the minimum-interval message; a resolution more than `max_reminder_months` ×
30 days = 90 days ahead fails with the maximum-interval message; a resolution
exactly 61 seconds ahead succeeds. -/
theorem C4_reminder_bounds (text : List Char) (now r : PyDateTime)
    (hne : (pyStrip text).isEmpty = false)
    (hres : reminderResolve (pyStrip text) now = Except.ok (some r)) :
    (toSec now < toSec r → toSec r - toSec now < 60 →
      parse_reminder_time text now = Except.error (PyExc.dateParse DPMsg.minInterval)) ∧
    (MAX_REMINDER_MONTHS * 30 * 86400 < toSec r - toSec now →
      parse_reminder_time text now = Except.error (PyExc.dateParse DPMsg.maxInterval)) ∧
    (toSec r - toSec now = 61 →
      parse_reminder_time text now = Except.ok r) := by
  unfold parse_reminder_time
  dsimp only
  rw [hne]
  simp only [Bool.false_eq_true, if_false]
  rw [hres]
  dsimp only
  refine ⟨?_, ?_, ?_⟩
  · intro h1 h2
    rw [if_neg (by omega), if_pos h2]
  · intro h
    unfold MAX_REMINDER_MONTHS at h
    rw [if_neg (by omega), if_neg (by omega),
      if_pos (by unfold MAX_REMINDER_MONTHS; omega)]
  · intro h
    rw [if_neg (by omega), if_neg (by omega),
      if_neg (by unfold MAX_REMINDER_MONTHS; omega)]

theorem C4_reminder_bounds_witness :
    (reminderResolve (pyStrip ("в 15".data)) ⟨2025, 1, 2, 14, 59, 30⟩ =
        Except.ok (some ⟨2025, 1, 2, 15, 0, 0⟩) ∧
      toSec (⟨2025, 1, 2, 15, 0, 0⟩ : PyDateTime) -
        toSec (⟨2025, 1, 2, 14, 59, 30⟩ : PyDateTime) = 30 ∧
      parse_reminder_time ("в 15".data) ⟨2025, 1, 2, 14, 59, 30⟩ =
        Except.error (PyExc.dateParse DPMsg.minInterval)) ∧
    (parse_reminder_time ("25.12".data) ⟨2025, 1, 1, 10, 0, 0⟩ =
        Except.error (PyExc.dateParse DPMsg.maxInterval)) ∧
    (toSec (⟨2025, 1, 2, 15, 0, 0⟩ : PyDateTime) -
        toSec (⟨2025, 1, 2, 14, 58, 59⟩ : PyDateTime) = 61 ∧
      parse_reminder_time ("в 15".data) ⟨2025, 1, 2, 14, 58, 59⟩ =
        Except.ok ⟨2025, 1, 2, 15, 0, 0⟩) := by
  refine ⟨⟨by decide, by decide, ?_⟩, ?_, by decide, ?_⟩
  · exact (C4_reminder_bounds ("в 15".data) ⟨2025, 1, 2, 14, 59, 30⟩
      ⟨2025, 1, 2, 15, 0, 0⟩ (by decide) (by decide)).1 (by decide) (by decide)
  · exact (C4_reminder_bounds ("25.12".data) ⟨2025, 1, 1, 10, 0, 0⟩
      ⟨2025, 12, 25, 12, 0, 0⟩ (by decide) (by decide)).2.1 (by decide)
  · exact (C4_reminder_bounds ("в 15".data) ⟨2025, 1, 2, 14, 58, 59⟩
      ⟨2025, 1, 2, 15, 0, 0⟩ (by decide) (by decide)).2.2 (by decide)


/-- C7: whenever the weekday scan matches (first `WEEKDAYS_RU` key occurring
in the time-stripped input), `_parse_weekday` resolves to the next
strictly-future occurrence of that weekday — `k` days ahead with 1 ≤ k ≤ 7,
landing on weekday `w`, exactly 7 days ahead when `w` is today's weekday —
at the attached time if present, else 00:01; and `parse_deadline` then
returns exactly that timestamp, which is strictly greater than `now`. -/
theorem C7_weekday_parse (text : List Char) (now : PyDateTime) (topt : Option (Nat × Nat))
    (rem name : List Char) (w : Nat)
    (hvalid : ValidDT now)
    (hstrip : pyStrip text = text)
    (het : _extract_time (pyStrip (pyLowerStr text)) = (topt, rem))
    (hfind : WEEKDAYS_RU.find? (fun p => hasSub p.1 rem) = some (name, w)) :
    ∃ k, 1 ≤ k ∧ k ≤ 7 ∧
      _parse_weekday text now =
        some (setHMS (addDays k now) (topt.getD (0, 1)).1 (topt.getD (0, 1)).2) ∧
      weekday (addDays k now) = w ∧
      (w = weekday now → k = 7) ∧
      toSec now < toSec (setHMS (addDays k now) (topt.getD (0, 1)).1 (topt.getD (0, 1)).2) ∧
      (_parse_relative_time text now = none →
        parse_deadline text now =
          Except.ok (setHMS (addDays k now) (topt.getD (0, 1)).1 (topt.getD (0, 1)).2)) := by
  have hw7 : w < 7 := by
    have hmem := List.mem_of_find?_eq_some hfind
    have hall : ∀ p ∈ WEEKDAYS_RU, p.2 < 7 := by decide
    exact hall (name, w) hmem
  have hcw7 : weekday now < 7 := weekday_lt now
  set cw := weekday now with hcw
  set k := if cw < w then w - cw else w + 7 - cw with hk
  have hk1 : 1 ≤ k := by rw [hk]; split <;> omega
  have hk7 : k ≤ 7 := by rw [hk]; split <;> omega
  have hpw : _parse_weekday text now =
      some (setHMS (addDays k now) (topt.getD (0, 1)).1 (topt.getD (0, 1)).2) := by
    unfold _parse_weekday
    dsimp only
    rw [het, hfind]
  have hwd : weekday (addDays k now) = w := by
    rw [weekday_addDays k hvalid, ← hcw, hk]
    split <;> omega
  have hlt : toSec now <
      toSec (setHMS (addDays k now) (topt.getD (0, 1)).1 (topt.getD (0, 1)).2) := by
    apply toSec_lt_of_dayNumber_lt hvalid
    rw [toDayNumber_setHMS, toDayNumber_addDays k hvalid]
    omega
  refine ⟨k, hk1, hk7, hpw, hwd, by intro he; rw [hk, he]; rw [if_neg (lt_irrefl cw)]; omega, hlt, ?_⟩
  intro hrel
  have htne : text ≠ [] := by
    intro h0
    rw [h0] at het
    have he0 : _extract_time (pyStrip (pyLowerStr [])) =
        ((none : Option (Nat × Nat)), ([] : List Char)) := by decide
    rw [he0] at het
    obtain ⟨h1, h2⟩ := Prod.mk.injEq .. ▸ het
    rw [← h2] at hfind
    have : WEEKDAYS_RU.find? (fun p => hasSub p.1 ([] : List Char)) = none := by decide
    rw [this] at hfind
    exact Option.noConfusion hfind
  unfold parse_deadline
  dsimp only
  rw [hstrip]
  rw [if_neg (by simp [htne])]
  rw [hrel, hpw]
  dsimp only
  rw [if_neg (by omega)]

theorem C7_weekday_parse_witness :
    (parse_deadline ("в пятницу".data) ⟨2025, 1, 3, 10, 0, 0⟩ =
        Except.ok ⟨2025, 1, 10, 0, 1, 0⟩ ∧
      weekday ⟨2025, 1, 3, 10, 0, 0⟩ = 4 ∧ weekday ⟨2025, 1, 10, 0, 1, 0⟩ = 4) ∧
    (∃ k, 1 ≤ k ∧ k ≤ 7 ∧
      _parse_weekday ("в пятницу".data) ⟨2025, 1, 3, 10, 0, 0⟩ =
        some (setHMS (addDays k ⟨2025, 1, 3, 10, 0, 0⟩) 0 1) ∧
      weekday (addDays k ⟨2025, 1, 3, 10, 0, 0⟩) = 4 ∧
      (4 = weekday ⟨2025, 1, 3, 10, 0, 0⟩ → k = 7) ∧
      toSec ⟨2025, 1, 3, 10, 0, 0⟩ < toSec (setHMS (addDays k ⟨2025, 1, 3, 10, 0, 0⟩) 0 1) ∧
      (_parse_relative_time ("в пятницу".data) ⟨2025, 1, 3, 10, 0, 0⟩ = none →
        parse_deadline ("в пятницу".data) ⟨2025, 1, 3, 10, 0, 0⟩ =
          Except.ok (setHMS (addDays k ⟨2025, 1, 3, 10, 0, 0⟩) 0 1))) := by
  refine ⟨⟨by decide, by decide, by decide⟩, ?_⟩
  exact C7_weekday_parse ("в пятницу".data) ⟨2025, 1, 3, 10, 0, 0⟩ none
    ("в пятницу".data) ("пятницу".data) 4 (by decide) (by decide) (by decide) (by decide)


theorem startsWithL_iff (n : List Char) : ∀ l : List Char,
    startsWithL l n = true ↔ ∃ post, l = n ++ post := by
  induction n with
  | nil =>
    intro l
    simp [startsWithL]
  | cons x xs ih =>
    intro l
    cases l with
    | nil => simp [startsWithL]
    | cons c cs =>
      simp only [startsWithL, Bool.and_eq_true, beq_iff_eq, ih, List.cons_append,
        List.cons.injEq]
      constructor
      · rintro ⟨rfl, post, rfl⟩
        exact ⟨post, rfl, rfl⟩
      · rintro ⟨post, rfl, rfl⟩
        exact ⟨rfl, post, rfl⟩

theorem hasSub_iff (n : List Char) : ∀ h : List Char,
    hasSub n h = true ↔ ∃ pre post, h = pre ++ n ++ post := by
  intro h
  induction h with
  | nil =>
    simp only [hasSub, List.isEmpty_iff]
    constructor
    · rintro rfl
      exact ⟨[], [], rfl⟩
    · rintro ⟨pre, post, he⟩
      cases pre <;> cases n <;> simp_all
  | cons c cs ih =>
    simp only [hasSub, Bool.or_eq_true, startsWithL_iff, ih]
    constructor
    · rintro (⟨post, he⟩ | ⟨pre, post, he⟩)
      · exact ⟨[], post, by simpa using he⟩
      · exact ⟨c :: pre, post, by simp [he]⟩
    · rintro ⟨pre, post, he⟩
      cases pre with
      | nil => exact Or.inl ⟨post, by simpa using he⟩
      | cons p pre' =>
        simp only [List.cons_append, List.cons.injEq] at he
        exact Or.inr ⟨pre', post, by rw [he.2]⟩

theorem boundMatchAt_iff (kw : List Char) (prev : Bool) (l : List Char) :
    boundMatchAt kw prev l = true ↔
      ∃ post, l = kw ++ post ∧ prev = false ∧ headOk post := by
  unfold boundMatchAt
  simp only [Bool.and_eq_true, startsWithL_iff, Bool.not_eq_eq_eq_not, Bool.not_true]
  constructor
  · rintro ⟨⟨⟨post, rfl⟩, hprev⟩, hnext⟩
    refine ⟨post, rfl, hprev, ?_⟩
    rw [List.drop_left] at hnext
    cases post with
    | nil => trivial
    | cons c cs => simpa [headOk] using hnext
  · rintro ⟨post, rfl, hprev, hnext⟩
    refine ⟨⟨⟨post, rfl⟩, hprev⟩, ?_⟩
    rw [List.drop_left]
    cases post with
    | nil => trivial
    | cons c cs => simpa [headOk] using hnext

theorem boundSearchAux_iff (kw : List Char) (hkw : kw ≠ []) :
    ∀ (hay : List Char) (prev : Bool),
      boundSearchAux kw prev hay = true ↔
        ∃ pre post, hay = pre ++ kw ++ post ∧ lastWordOk prev pre ∧ headOk post := by
  intro hay
  induction hay with
  | nil =>
    intro prev
    simp only [boundSearchAux]
    constructor
    · intro hc
      exact absurd hc (by simp)
    · rintro ⟨pre, post, he, _⟩
      have hlen := congrArg List.length he
      simp only [List.length_nil, List.length_append] at hlen
      have hk0 : kw.length ≠ 0 := by simpa using hkw
      omega
  | cons c cs ih =>
    intro prev
    simp only [boundSearchAux, Bool.or_eq_true, boundMatchAt_iff, ih]
    constructor
    · rintro (⟨post, he, hprev, hnext⟩ | ⟨pre, post, he, hlast, hnext⟩)
      · exact ⟨[], post, by simpa using he, by simpa [lastWordOk] using hprev, hnext⟩
      · exact ⟨c :: pre, post, by simp [he], by simpa [lastWordOk] using hlast, hnext⟩
    · rintro ⟨pre, post, he, hlast, hnext⟩
      cases pre with
      | nil =>
        exact Or.inl ⟨post, by simpa using he, by simpa [lastWordOk] using hlast, hnext⟩
      | cons p pre' =>
        simp only [List.cons_append, List.cons.injEq] at he
        obtain ⟨rfl, he2⟩ := he
        exact Or.inr ⟨pre', post, he2, by simpa [lastWordOk] using hlast, hnext⟩

theorem categorizeGo_eq_find (dl : List Char) :
    ∀ l : List (List Char × List (List Char)),
      categorizeGo dl l =
        ((l.find? (fun p => p.2.any (fun kw => kwMatch dl kw))).map Prod.fst).getD
          ("Прочее".data) := by
  intro l
  induction l with
  | nil => rfl
  | cons p rest ih =>
    obtain ⟨cat, kws⟩ := p
    by_cases h : kws.any (fun kw => kwMatch dl kw) = true
    · rw [List.find?_cons_of_pos _ (by simpa using h)]
      simp [categorizeGo, h]
    · rw [List.find?_cons_of_neg _ (by simpa using h)]
      simp only [categorizeGo, h, if_false]
      exact ih

/-- C8: `categorize_expense` is a total function of the text (purity and
totality are inherent to the embedding), equal to the first category in table
order having any matching keyword ("Прочее" when none matches); a keyword of
length ≤ 3 matches exactly when it occurs with non-word characters (or the
text edge) on both sides of the occurrence, and a longer keyword exactly when
it occurs as a substring — both against the lowercased text. -/
theorem C8_categorize (description : List Char) :
    categorize_expense description =
      ((CATEGORY_KEYWORDS.find? (fun p =>
          p.2.any (fun kw => kwMatch (pyLowerStr description) kw))).map Prod.fst).getD
        ("Прочее".data) ∧
    (∀ kw : List Char, kw ≠ [] →
      (kwMatch (pyLowerStr description) kw = true ↔
        (if kw.length ≤ 3 then
          ∃ pre post, pyLowerStr description = pre ++ kw ++ post ∧
            lastWordOk false pre ∧ headOk post
        else
          ∃ pre post, pyLowerStr description = pre ++ kw ++ post))) := by
  constructor
  · exact categorizeGo_eq_find (pyLowerStr description) CATEGORY_KEYWORDS
  · intro kw hkw
    unfold kwMatch
    by_cases hlen : kw.length ≤ 3
    · rw [if_pos hlen, if_pos hlen]
      exact boundSearchAux_iff kw hkw (pyLowerStr description) false
    · rw [if_neg hlen, if_neg hlen]
      exact hasSub_iff kw (pyLowerStr description)

theorem C8_categorize_witness :
    categorize_expense ("жд билеты".data) = "Транспорт".data ∧
    kwMatch (pyLowerStr ("жд билеты".data)) ("жд".data) = true ∧
    (kwMatch (pyLowerStr ("жд билеты".data)) ("жд".data) = true ↔
      (if ("жд".data).length ≤ 3 then
        ∃ pre post, pyLowerStr ("жд билеты".data) = pre ++ ("жд".data) ++ post ∧
          lastWordOk false pre ∧ headOk post
      else
        ∃ pre post, pyLowerStr ("жд билеты".data) = pre ++ ("жд".data) ++ post)) :=
  ⟨by decide, by decide,
    (C8_categorize ("жд билеты".data)).2 ("жд".data) (by decide)⟩


theorem skipWeekend_of_lt {d : PyDateTime} (fuel : Nat) (h : weekday d < 5) :
    skipWeekend fuel d = d := by
  cases fuel with
  | zero => rfl
  | succ n =>
    unfold skipWeekend
    rw [if_neg (by omega)]

theorem skipWeekend_sat {d : PyDateTime} (hv : ValidDT d) (h : weekday d = 5) :
    skipWeekend 7 d = addDays 2 d ∧ weekday (addDays 2 d) = 0 := by
  have h1 : weekday (nextDate d) = 6 := by rw [weekday_nextDate hv, h]
  have hv1 := validDT_nextDate hv
  have h2 : weekday (nextDate (nextDate d)) = 0 := by rw [weekday_nextDate hv1, h1]
  constructor
  · unfold skipWeekend
    rw [if_pos (by omega)]
    unfold skipWeekend
    rw [if_pos (by omega)]
    unfold skipWeekend
    rw [if_neg (by omega)]
    rfl
  · show weekday (nextDate (nextDate d)) = 0
    exact h2

theorem skipWeekend_sun {d : PyDateTime} (hv : ValidDT d) (h : weekday d = 6) :
    skipWeekend 7 d = addDays 1 d ∧ weekday (addDays 1 d) = 0 := by
  have h1 : weekday (nextDate d) = 0 := by rw [weekday_nextDate hv, h]
  constructor
  · unfold skipWeekend
    rw [if_pos (by omega)]
    unfold skipWeekend
    rw [if_neg (by omega)]
    rfl
  · show weekday (nextDate d) = 0
    exact h1

theorem seekWeekday_eq (target : Nat) :
    ∀ (fuel : Nat) (s : PyDateTime) (k : Nat), ValidDT s → k < fuel →
      (weekday s + k) % 7 = target →
      (∀ j, j < k → (weekday s + j) % 7 ≠ target) →
      seekWeekday target fuel s = addDays k s := by
  intro fuel
  induction fuel with
  | zero =>
    intro s k _ hk _ _
    omega
  | succ n ih =>
    intro s k hv hk hm hmin
    have hw := weekday_lt s
    by_cases he : weekday s = target
    · have hk0 : k = 0 := by
        by_contra hne
        exact hmin 0 (by omega) (by omega)
      subst hk0
      show seekWeekday target (n + 1) s = s
      unfold seekWeekday
      rw [if_neg (not_not_intro he)]
    · have hk1 : k ≠ 0 := by
        intro h0
        subst h0
        exact he (by omega)
      obtain ⟨k', rfl⟩ : ∃ k', k = k' + 1 := ⟨k - 1, by omega⟩
      have hv1 := validDT_nextDate hv
      have hwn : weekday (nextDate s) = (weekday s + 1) % 7 := weekday_nextDate hv
      have hm1 : (weekday (nextDate s) + k') % 7 = target := by
        rw [hwn]
        omega
      have hmin1 : ∀ j, j < k' → (weekday (nextDate s) + j) % 7 ≠ target := by
        intro j hj hc
        apply hmin (j + 1) (by omega)
        rw [hwn] at hc
        omega
      have hrec := ih (nextDate s) k' hv1 (by omega) hm1 hmin1
      show seekWeekday target (n + 1) s = addDays (k' + 1) s
      unfold seekWeekday
      rw [if_pos he]
      exact hrec

/-- Full characterization of the weekly-day search from a valid start date:
the loop lands `k ∈ [1,7]` days after `dl` on the first future occurrence of
weekday `w`. -/
theorem seekWeekday_spec (w : Nat) (hw : w < 7) {dl : PyDateTime} (hvd : ValidDT dl) :
    ∃ k, 1 ≤ k ∧ k ≤ 7 ∧ seekWeekday w 7 (nextDate dl) = addDays k dl ∧
      weekday (addDays k dl) = w ∧
      ∀ j, 1 ≤ j → j < k → weekday (addDays j dl) ≠ w := by
  have hv1 := validDT_nextDate hvd
  have hws := weekday_lt (nextDate dl)
  have hwn : weekday (nextDate dl) = (weekday dl + 1) % 7 := weekday_nextDate hvd
  set k0 := (w + 7 - weekday (nextDate dl)) % 7 with hk0
  have hlt : k0 < 7 := Nat.mod_lt _ (by norm_num)
  have hm : (weekday (nextDate dl) + k0) % 7 = w := by
    rw [hk0]
    omega
  have hmin : ∀ j, j < k0 → (weekday (nextDate dl) + j) % 7 ≠ w := by
    intro j hj hc
    rw [hk0] at hj
    omega
  have heq := seekWeekday_eq w 7 (nextDate dl) k0 hv1 (by omega) hm hmin
  refine ⟨k0 + 1, by omega, by omega, by rw [heq]; rfl, ?_, ?_⟩
  · have : addDays (k0 + 1) dl = addDays k0 (nextDate dl) := rfl
    rw [this, weekday_addDays k0 hv1, hm]
  · intro j hj1 hjk hc
    rw [weekday_addDays j hvd] at hc
    exact hmin (j - 1) (by omega) (by rw [hwn]; omega)

/-- C3: closing an active recurring task with a deadline creates exactly one
open successor that copies chat, author, assignee, text and recurrence, whose
`parent_task_id` is the closed task's `parent_task_id` if set, else its own
id, and whose deadline is: +1 day for DAILY; +1 day advanced past Sat/Sun for
WEEKDAYS (a Saturday landing rolls to Monday); +1 week for WEEKLY; the next
strictly-future occurrence of the named weekday for WEEKLY_<day>; +1 calendar
month with day-of-month clamping for MONTHLY. -/
theorem C3_recurring_successor (t : Task) (dl : PyDateTime) (newId : Nat)
    (hvd : ValidDT dl) (hact : t.recurrence_active = true)
    (hdl : t.deadline = some dl)
    (hpar : ∀ p, t.parent_task_id = some p → 0 < p)
    (hrec : t.recurrence ≠ RecurrenceType.NONE) :
    ∃ nd : PyDateTime,
      _create_next_recurring_task t newId =
        some { id := newId, chat_id := t.chat_id, author_id := t.author_id,
               assignee_id := t.assignee_id, text := t.text,
               deadline := some nd, status := TaskStatus.OPEN,
               recurrence := t.recurrence,
               parent_task_id := some (t.parent_task_id.getD t.id),
               recurrence_active := true } ∧
      (t.recurrence = RecurrenceType.DAILY → nd = nextDate dl) ∧
      (t.recurrence = RecurrenceType.WEEKLY → nd = addDays 7 dl) ∧
      (t.recurrence = RecurrenceType.WEEKDAYS →
        weekday nd < 5 ∧
        (weekday (nextDate dl) < 5 → nd = nextDate dl) ∧
        (weekday (nextDate dl) = 5 → nd = addDays 3 dl ∧ weekday nd = 0) ∧
        (weekday (nextDate dl) = 6 → nd = addDays 2 dl ∧ weekday nd = 0)) ∧
      (∀ w, weeklyDayMap t.recurrence = some w →
        ∃ k, 1 ≤ k ∧ k ≤ 7 ∧ nd = addDays k dl ∧ weekday nd = w ∧
          ∀ j, 1 ≤ j → j < k → weekday (addDays j dl) ≠ w) ∧
      (t.recurrence = RecurrenceType.MONTHLY →
        nd = addMonthClamp dl ∧
        (dl.month < 12 → nd.year = dl.year ∧ nd.month = dl.month + 1) ∧
        (dl.month = 12 → nd.year = dl.year + 1 ∧ nd.month = 1) ∧
        nd.day = min dl.day (daysInMonth nd.year nd.month) ∧
        nd.hour = dl.hour ∧ nd.minute = dl.minute) := by
  have hparent : (match t.parent_task_id with
      | some p => if p ≠ 0 then p else t.id
      | none => t.id) = t.parent_task_id.getD t.id := by
    cases hp : t.parent_task_id with
    | none => rfl
    | some p =>
      have hpos := hpar p hp
      dsimp only [Option.getD]
      rw [if_pos (by omega)]
  cases hr : t.recurrence with
  | NONE => exact absurd hr hrec
  | DAILY =>
    refine ⟨nextDate dl, ?_, fun _ => rfl, fun h => absurd h (by decide),
      fun h => absurd h (by decide), fun w hw => by simp [weeklyDayMap] at hw,
      fun h => absurd h (by decide)⟩
    unfold _create_next_recurring_task
    rw [hr, if_neg (by decide), hact, if_neg (by decide), hdl]
    dsimp only
    rw [hparent]
  | WEEKLY =>
    refine ⟨addDays 7 dl, ?_, fun h => absurd h (by decide), fun _ => rfl,
      fun h => absurd h (by decide), fun w hw => by simp [weeklyDayMap] at hw,
      fun h => absurd h (by decide)⟩
    unfold _create_next_recurring_task
    rw [hr, if_neg (by decide), hact, if_neg (by decide), hdl]
    dsimp only
    rw [hparent]
  | WEEKDAYS =>
    have hv1 := validDT_nextDate hvd
    have hw1 := weekday_lt (nextDate dl)
    have hfun : ∀ nd, skipWeekend 7 (nextDate dl) = nd →
        _create_next_recurring_task t newId =
          some { id := newId, chat_id := t.chat_id, author_id := t.author_id,
                 assignee_id := t.assignee_id, text := t.text,
                 deadline := some nd, status := TaskStatus.OPEN,
                 recurrence := RecurrenceType.WEEKDAYS,
                 parent_task_id := some (t.parent_task_id.getD t.id),
                 recurrence_active := true } := by
      intro nd hnd
      unfold _create_next_recurring_task
      rw [hr, if_neg (by decide), hact, if_neg (by decide), hdl]
      dsimp only
      rw [hparent, hnd]
    rcases Nat.lt_or_ge (weekday (nextDate dl)) 5 with hc | hc
    · refine ⟨nextDate dl, hfun _ (skipWeekend_of_lt 7 hc),
        fun h => absurd h (by decide), fun h => absurd h (by decide),
        fun _ => ⟨hc, fun _ => rfl, fun h5 => absurd h5 (by omega),
          fun h6 => absurd h6 (by omega)⟩,
        fun w hw => by simp [weeklyDayMap] at hw,
        fun h => absurd h (by decide)⟩
    · have hc56 : weekday (nextDate dl) = 5 ∨ weekday (nextDate dl) = 6 := by omega
      rcases hc56 with h5 | h6
      · obtain ⟨hsk, hwd⟩ := skipWeekend_sat hv1 h5
        have h3 : skipWeekend 7 (nextDate dl) = addDays 3 dl := by rw [hsk]; rfl
        have hwd3 : weekday (addDays 3 dl) = 0 := by
          have : addDays 3 dl = addDays 2 (nextDate dl) := rfl
          rw [this]
          exact hwd
        refine ⟨addDays 3 dl, hfun _ h3,
          fun h => absurd h (by decide), fun h => absurd h (by decide),
          fun _ => ⟨by omega, fun hlt => absurd hlt (by omega),
            fun _ => ⟨rfl, hwd3⟩, fun h6 => absurd h6 (by omega)⟩,
          fun w hw => by simp [weeklyDayMap] at hw,
          fun h => absurd h (by decide)⟩
      · obtain ⟨hsk, hwd⟩ := skipWeekend_sun hv1 h6
        have h2 : skipWeekend 7 (nextDate dl) = addDays 2 dl := by rw [hsk]; rfl
        have hwd2 : weekday (addDays 2 dl) = 0 := by
          have : addDays 2 dl = addDays 1 (nextDate dl) := rfl
          rw [this]
          exact hwd
        refine ⟨addDays 2 dl, hfun _ h2,
          fun h => absurd h (by decide), fun h => absurd h (by decide),
          fun _ => ⟨by omega, fun hlt => absurd hlt (by omega),
            fun h5 => absurd h5 (by omega), fun _ => ⟨rfl, hwd2⟩⟩,
          fun w hw => by simp [weeklyDayMap] at hw,
          fun h => absurd h (by decide)⟩
  | MONTHLY =>
    refine ⟨addMonthClamp dl, ?_, fun h => absurd h (by decide),
      fun h => absurd h (by decide), fun h => absurd h (by decide),
      fun w hw => by simp [weeklyDayMap] at hw,
      fun _ => ⟨rfl, ?_, ?_, ?_, ?_, ?_⟩⟩
    · unfold _create_next_recurring_task
      rw [hr, if_neg (by decide), hact, if_neg (by decide), hdl]
      dsimp only
      rw [hparent]
    · intro hlt
      unfold addMonthClamp
      rw [if_neg (by omega)]
      exact ⟨rfl, rfl⟩
    · intro h12
      unfold addMonthClamp
      rw [if_pos h12]
      exact ⟨rfl, rfl⟩
    · unfold addMonthClamp
      split <;> rfl
    · unfold addMonthClamp
      split <;> rfl
    · unfold addMonthClamp
      split <;> rfl
  | WEEKLY_MONDAY =>
    obtain ⟨k, hk1, hk7, heq, hwd, hmin⟩ := seekWeekday_spec 0 (by norm_num) hvd
    refine ⟨addDays k dl, ?_, fun h => absurd h (by decide),
      fun h => absurd h (by decide), fun h => absurd h (by decide),
      fun w hw => ?_, fun h => absurd h (by decide)⟩
    · unfold _create_next_recurring_task
      rw [hr, if_neg (by decide), hact, if_neg (by decide), hdl]
      dsimp only [weeklyDayMap]
      rw [hparent, heq]
    · simp only [weeklyDayMap, Option.some.injEq] at hw
      subst hw
      exact ⟨k, hk1, hk7, rfl, hwd, hmin⟩
  | WEEKLY_TUESDAY =>
    obtain ⟨k, hk1, hk7, heq, hwd, hmin⟩ := seekWeekday_spec 1 (by norm_num) hvd
    refine ⟨addDays k dl, ?_, fun h => absurd h (by decide),
      fun h => absurd h (by decide), fun h => absurd h (by decide),
      fun w hw => ?_, fun h => absurd h (by decide)⟩
    · unfold _create_next_recurring_task
      rw [hr, if_neg (by decide), hact, if_neg (by decide), hdl]
      dsimp only [weeklyDayMap]
      rw [hparent, heq]
    · simp only [weeklyDayMap, Option.some.injEq] at hw
      subst hw
      exact ⟨k, hk1, hk7, rfl, hwd, hmin⟩
  | WEEKLY_WEDNESDAY =>
    obtain ⟨k, hk1, hk7, heq, hwd, hmin⟩ := seekWeekday_spec 2 (by norm_num) hvd
    refine ⟨addDays k dl, ?_, fun h => absurd h (by decide),
      fun h => absurd h (by decide), fun h => absurd h (by decide),
      fun w hw => ?_, fun h => absurd h (by decide)⟩
    · unfold _create_next_recurring_task
      rw [hr, if_neg (by decide), hact, if_neg (by decide), hdl]
      dsimp only [weeklyDayMap]
      rw [hparent, heq]
    · simp only [weeklyDayMap, Option.some.injEq] at hw
      subst hw
      exact ⟨k, hk1, hk7, rfl, hwd, hmin⟩
  | WEEKLY_THURSDAY =>
    obtain ⟨k, hk1, hk7, heq, hwd, hmin⟩ := seekWeekday_spec 3 (by norm_num) hvd
    refine ⟨addDays k dl, ?_, fun h => absurd h (by decide),
      fun h => absurd h (by decide), fun h => absurd h (by decide),
      fun w hw => ?_, fun h => absurd h (by decide)⟩
    · unfold _create_next_recurring_task
      rw [hr, if_neg (by decide), hact, if_neg (by decide), hdl]
      dsimp only [weeklyDayMap]
      rw [hparent, heq]
    · simp only [weeklyDayMap, Option.some.injEq] at hw
      subst hw
      exact ⟨k, hk1, hk7, rfl, hwd, hmin⟩
  | WEEKLY_FRIDAY =>
    obtain ⟨k, hk1, hk7, heq, hwd, hmin⟩ := seekWeekday_spec 4 (by norm_num) hvd
    refine ⟨addDays k dl, ?_, fun h => absurd h (by decide),
      fun h => absurd h (by decide), fun h => absurd h (by decide),
      fun w hw => ?_, fun h => absurd h (by decide)⟩
    · unfold _create_next_recurring_task
      rw [hr, if_neg (by decide), hact, if_neg (by decide), hdl]
      dsimp only [weeklyDayMap]
      rw [hparent, heq]
    · simp only [weeklyDayMap, Option.some.injEq] at hw
      subst hw
      exact ⟨k, hk1, hk7, rfl, hwd, hmin⟩
  | WEEKLY_SATURDAY =>
    obtain ⟨k, hk1, hk7, heq, hwd, hmin⟩ := seekWeekday_spec 5 (by norm_num) hvd
    refine ⟨addDays k dl, ?_, fun h => absurd h (by decide),
      fun h => absurd h (by decide), fun h => absurd h (by decide),
      fun w hw => ?_, fun h => absurd h (by decide)⟩
    · unfold _create_next_recurring_task
      rw [hr, if_neg (by decide), hact, if_neg (by decide), hdl]
      dsimp only [weeklyDayMap]
      rw [hparent, heq]
    · simp only [weeklyDayMap, Option.some.injEq] at hw
      subst hw
      exact ⟨k, hk1, hk7, rfl, hwd, hmin⟩
  | WEEKLY_SUNDAY =>
    obtain ⟨k, hk1, hk7, heq, hwd, hmin⟩ := seekWeekday_spec 6 (by norm_num) hvd
    refine ⟨addDays k dl, ?_, fun h => absurd h (by decide),
      fun h => absurd h (by decide), fun h => absurd h (by decide),
      fun w hw => ?_, fun h => absurd h (by decide)⟩
    · unfold _create_next_recurring_task
      rw [hr, if_neg (by decide), hact, if_neg (by decide), hdl]
      dsimp only [weeklyDayMap]
      rw [hparent, heq]
    · simp only [weeklyDayMap, Option.some.injEq] at hw
      subst hw
      exact ⟨k, hk1, hk7, rfl, hwd, hmin⟩

theorem C3_recurring_successor_witness :
    _create_next_recurring_task
      ⟨5, 10, 1, 2, [], some ⟨2025, 1, 3, 0, 1, 0⟩, TaskStatus.OPEN,
        RecurrenceType.DAILY, none, true⟩ 99 =
      some ⟨99, 10, 1, 2, [], some ⟨2025, 1, 4, 0, 1, 0⟩, TaskStatus.OPEN,
        RecurrenceType.DAILY, some 5, true⟩ := by
  obtain ⟨nd, hf, hdaily, _⟩ :=
    C3_recurring_successor
      ⟨5, 10, 1, 2, [], some ⟨2025, 1, 3, 0, 1, 0⟩, TaskStatus.OPEN,
        RecurrenceType.DAILY, none, true⟩ ⟨2025, 1, 3, 0, 1, 0⟩ 99
      (by decide) rfl rfl (fun p hp => Option.noConfusion hp) (by decide)
  rw [hdaily rfl] at hf
  exact hf

end Sanechek
